import Mathlib

/-!
Verification of the demosaic / calibration engine and the color grading
pipeline of the raweditapp repository (src/src-tauri/src/lib.rs).

The demosaic path (`calculate_wb_norm`, `calculate_cam_to_srgb`,
`process_bayer`) only uses field arithmetic, comparisons and clamping.  It
is embedded twice, with the same geometry and control flow:

* over `ℚ` (`process_bayer`), where division is total with `x / 0 = 0`.
  This abstraction is sound only for the value-independent properties
  proved about it below (error routing, output dimensions, the sum/count
  guard, the wb-gain and calibration-matrix branches, all of whose
  divisions are guarded in the source);
* over `FVal` (`process_bayerF`) — exact rationals extended with `+∞`,
  `-∞` and `NaN`, propagated by the IEEE-754 rules (without rounding or
  overflow).  This refinement is needed because the division by
  `white_range` at lib.rs line 151 is NOT guarded in the source:
  when `whitelevels[1] == blacklevels[1]` it produces an infinity, the
  calibration matrix multiply then produces `NaN` (`0 * ∞`), and Rust's
  `f32::clamp` passes `NaN` through into the returned buffer.

The grading path (`apply_processing`) computes `2^x` and `x^(1/2.2)`, so
it is embedded over `ℝ` with `Real.rpow`.
-/

namespace RawEditApp

/-- Sample payload of a decoded raw frame (`rawloader::RawImageData`):
integer-encoded sensor samples or floating-point samples. -/
inductive RawImageData where
  | Integer : List ℕ → RawImageData
  | Float : List ℚ → RawImageData

/-- The decoded sensor frame (the fields of `rawloader::RawImage` that
`lib.rs` reads; the decoder itself is an external collaborator).
`camToXyz` is the 3×4 matrix returned by `cam_to_xyz_normalized()`. -/
structure RawImage where
  width : ℕ
  height : ℕ
  data : RawImageData
  cfa : ℕ → ℕ → ℕ
  blacklevels : Fin 4 → ℕ
  whitelevels : Fin 4 → ℕ
  wb_coeffs : Fin 4 → ℚ
  camToXyz : Fin 3 → Fin 4 → ℚ

/-- Output of `process_bayer` (`PreviewContext` in lib.rs): RGBA
interleaved float data. -/
structure PreviewContext where
  width : ℕ
  height : ℕ
  data : List ℚ
deriving DecidableEq

/-- lib.rs lines 40-46: 3x3 matrix times column vector. -/
def mult_matrix (m : Fin 3 → Fin 3 → ℚ) (v : Fin 3 → ℚ) : Fin 3 → ℚ :=
  ![m 0 0 * v 0 + m 0 1 * v 1 + m 0 2 * v 2,
    m 1 0 * v 0 + m 1 1 * v 1 + m 1 2 * v 2,
    m 2 0 * v 0 + m 2 1 * v 1 + m 2 2 * v 2]

/-- The fixed XYZ(D65) → sRGB matrix of lib.rs lines 57-61. -/
def xyz_to_srgb : Fin 3 → Fin 3 → ℚ :=
  ![![3.2404542, -1.5371385, -0.4985314],
    ![-0.9692660, 1.8760108, 0.0415560],
    ![0.0556434, -0.2040259, 1.0572252]]

/-- lib.rs lines 50-55: keep the first 3 columns of the 3×4
`cam_to_xyz_normalized` matrix. -/
def truncate34 (m : Fin 3 → Fin 4 → ℚ) : Fin 3 → Fin 3 → ℚ :=
  fun i => ![m i 0, m i 1, m i 2]

/-- lib.rs lines 63-70: `cam_to_srgb[i][j] = Σ_k xyz_to_srgb[i][k] *
cam_to_xyz[k][j]` (the inner `+=` loop unrolled over k = 0,1,2). -/
def composeCamSrgb (camToXyz : Fin 3 → Fin 3 → ℚ) : Fin 3 → Fin 3 → ℚ :=
  fun i j =>
    xyz_to_srgb i 0 * camToXyz 0 j + xyz_to_srgb i 1 * camToXyz 1 j +
      xyz_to_srgb i 2 * camToXyz 2 j

/-- lib.rs line 73: `cam_to_srgb.iter().flatten().sum()`, the row-major sum
of the nine entries. -/
def matrixSum9 (m : Fin 3 → Fin 3 → ℚ) : ℚ :=
  m 0 0 + m 0 1 + m 0 2 + m 1 0 + m 1 1 + m 1 2 + m 2 0 + m 2 1 + m 2 2

/-- The 3×3 identity matrix of lib.rs line 75. -/
def identity3 : Fin 3 → Fin 3 → ℚ :=
  ![![1, 0, 0], ![0, 1, 0], ![0, 0, 1]]

/-- lib.rs lines 48-79 (`calculate_cam_to_srgb`): compose the truncated
camera→XYZ matrix with the fixed XYZ→sRGB matrix; if the nine entries sum
to exactly 0.0 substitute the identity matrix. -/
def calculate_cam_to_srgb (camToXyz4 : Fin 3 → Fin 4 → ℚ) : Fin 3 → Fin 3 → ℚ :=
  let cam_to_srgb := composeCamSrgb (truncate34 camToXyz4)
  if matrixSum9 cam_to_srgb = 0 then identity3 else cam_to_srgb

/-- lib.rs lines 81-92 (`calculate_wb_norm`): `g_val` is `wb[1]` when
positive, else 1.0; each entry is `wb[i] / g_val` when `g_val > 0.0001`,
else left at the initial 1.0. -/
def calculate_wb_norm (wb : Fin 4 → ℚ) : Fin 4 → ℚ :=
  let g_val := if wb 1 > 0 then wb 1 else 1
  fun i => if g_val > 0.0001 then wb i / g_val else 1

/-- lib.rs lines 104-115: the downsample step. `Full` quality uses 2;
`Preview` uses `ceil(full_w / 1024)` clamped to a minimum of 2 (modelled as
natural ceiling division, exact for every width below 2^24 where f32 is
exact); finally an odd step is incremented to the next even number. -/
def stepOf (full_quality : Bool) (full_w : ℕ) : ℕ :=
  let step :=
    if full_quality then 2
    else
      let s := (full_w + 1023) / 1024
      if s < 2 then 2 else s
  if step % 2 ≠ 0 then step + 1 else step

/-- Rust `x.clamp(0.0, 1.0)`. -/
def clamp01 (x : ℚ) : ℚ := min (max x 0) 1

/-- Running sums and counts for one superpixel block (lib.rs lines
134-139). -/
structure BlockAcc where
  rSum : ℚ
  gSum : ℚ
  bSum : ℚ
  rCnt : ℚ
  gCnt : ℚ
  bCnt : ℚ
deriving DecidableEq

/-- The in-bounds cells of the `step × step` block whose top-left corner is
`(src_x, src_y)` (lib.rs lines 141-144: out-of-bounds rows/columns are
skipped with `continue`). -/
def blockCells (full_w full_h step src_x src_y : ℕ) : List (ℕ × ℕ) :=
  (List.range step).flatMap fun dy =>
    (List.range step).filterMap fun dx =>
      if src_x + dx < full_w ∧ src_y + dy < full_h then
        some (src_x + dx, src_y + dy)
      else none

/-- lib.rs lines 146-161: process one sensor cell — black-level subtract,
normalize by the shared green range, clamp at 0, apply the white-balance
gain, and accumulate into the channel bucket chosen by the CFA color
(0=R, 1=G, 2=B, anything else into G).  This `ℚ` version abstracts the
division by `white_range` as total (`x / 0 = 0`); the source does NOT
guard it, and a zero `white_range` produces non-finite floats.  Only
value-independent properties are proved against this version;
`accumCellF` below models the same lines with faithful non-finite
propagation. -/
def accumCell (raw : RawImage) (samples : List ℕ) (wb_norm : Fin 4 → ℚ)
    (white_range black_level : ℚ) (acc : BlockAcc) (cell : ℕ × ℕ) : BlockAcc :=
  let idx := cell.2 * raw.width + cell.1
  let color := raw.cfa cell.1 cell.2
  let raw_val : ℚ := (samples.getD idx 0 : ℕ)
  let bl : ℚ := if h : color < 4 then (raw.blacklevels ⟨color, h⟩ : ℚ) else black_level
  let val : ℚ := max ((raw_val - bl) / white_range) 0
  let wb_gain : ℚ := if h : color < 4 then wb_norm ⟨color, h⟩ else 1
  let wb_val := val * wb_gain
  match color with
  | 0 => { acc with rSum := acc.rSum + wb_val, rCnt := acc.rCnt + 1 }
  | 1 => { acc with gSum := acc.gSum + wb_val, gCnt := acc.gCnt + 1 }
  | 2 => { acc with bSum := acc.bSum + wb_val, bCnt := acc.bCnt + 1 }
  | _ => { acc with gSum := acc.gSum + wb_val, gCnt := acc.gCnt + 1 }

/-- The double block loop of lib.rs lines 141-163, starting from all-zero
sums and counts. -/
def blockAccum (raw : RawImage) (samples : List ℕ) (wb_norm : Fin 4 → ℚ)
    (white_range black_level : ℚ) (step src_x src_y : ℕ) : BlockAcc :=
  (blockCells raw.width raw.height step src_x src_y).foldl
    (accumCell raw samples wb_norm white_range black_level) ⟨0, 0, 0, 0, 0, 0⟩

/-- lib.rs lines 165-167: `sum / count` when the count is positive, else
0.0. -/
def avgOf (sum cnt : ℚ) : ℚ := if 0 < cnt then sum / cnt else 0

/-- lib.rs lines 129-175, one output pixel: average the block per channel,
apply the calibration matrix, clamp each channel to [0,1] and emit
(R, G, B, 1.0). -/
def pixelRGBA (raw : RawImage) (samples : List ℕ) (cam : Fin 3 → Fin 3 → ℚ)
    (wb_norm : Fin 4 → ℚ) (white_range black_level : ℚ) (step x y : ℕ) : List ℚ :=
  let acc := blockAccum raw samples wb_norm white_range black_level step (x * step) (y * step)
  let r_avg := avgOf acc.rSum acc.rCnt
  let g_avg := avgOf acc.gSum acc.gCnt
  let b_avg := avgOf acc.bSum acc.bCnt
  let srgb := mult_matrix cam ![r_avg, g_avg, b_avg]
  [clamp01 (srgb 0), clamp01 (srgb 1), clamp01 (srgb 2), 1]

/-- lib.rs lines 94-179 (`process_bayer`): reject non-integer sample data,
choose the step, and emit the row-major RGBA data of the
`(full_w / step) × (full_h / step)` downsampled image. -/
def process_bayer (raw : RawImage) (full_quality : Bool) :
    Except String PreviewContext :=
  match raw.data with
  | RawImageData.Float _ => Except.error "Float raw data not supported"
  | RawImageData.Integer samples =>
    let step := stepOf full_quality raw.width
    let w := raw.width / step
    let h := raw.height / step
    let cam := calculate_cam_to_srgb raw.camToXyz
    let wb_norm := calculate_wb_norm raw.wb_coeffs
    let base_white : ℚ := (raw.whitelevels 1 : ℕ)
    let black_level : ℚ := (raw.blacklevels 1 : ℕ)
    let white_range := base_white - black_level
    let pixels := (List.range h).flatMap fun y =>
      (List.range w).map fun x =>
        pixelRGBA raw samples cam wb_norm white_range black_level step x y
    Except.ok { width := w, height := h, data := pixels.flatten }

/-! The `FVal` refinement: the same per-pixel value path as above, with
f32 values modelled as exact rationals extended by `+∞`, `-∞` and `NaN`
(IEEE-754 propagation, no rounding or overflow).  The only zeros this
pipeline ever divides by are `white_range` (an f32 subtraction `a - a`,
which IEEE produces as `+0`) and the block counts (sums of `+1.0`), so
`fin 0` faithfully stands for `+0` in every division performed. -/

/-- An f32 value: finite (exact rational), an infinity, or `NaN`. -/
inductive FVal where
  | fin : ℚ → FVal
  | pinf : FVal
  | ninf : FVal
  | nan : FVal
deriving DecidableEq

/-- IEEE f32 addition on extended values (exact on finite operands). -/
def FVal.add : FVal → FVal → FVal
  | nan, _ => nan
  | _, nan => nan
  | pinf, ninf => nan
  | ninf, pinf => nan
  | pinf, _ => pinf
  | ninf, _ => ninf
  | _, pinf => pinf
  | _, ninf => ninf
  | fin q, fin r => fin (q + r)

/-- IEEE f32 multiplication on extended values: `0 * ±∞ = NaN`. -/
def FVal.mul : FVal → FVal → FVal
  | nan, _ => nan
  | _, nan => nan
  | pinf, pinf => pinf
  | pinf, ninf => ninf
  | ninf, pinf => ninf
  | ninf, ninf => pinf
  | pinf, fin r => if 0 < r then pinf else if r < 0 then ninf else nan
  | ninf, fin r => if 0 < r then ninf else if r < 0 then pinf else nan
  | fin q, pinf => if 0 < q then pinf else if q < 0 then ninf else nan
  | fin q, ninf => if 0 < q then ninf else if q < 0 then pinf else nan
  | fin q, fin r => fin (q * r)

/-- IEEE f32 division on extended values: `q / +0` is `±∞` for `q ≠ 0` and
`NaN` for `q = 0`; `±∞ / ±∞ = NaN` (`fin 0` stands for `+0`, see above). -/
def FVal.div : FVal → FVal → FVal
  | nan, _ => nan
  | _, nan => nan
  | pinf, pinf => nan
  | pinf, ninf => nan
  | ninf, pinf => nan
  | ninf, ninf => nan
  | pinf, fin r => if r < 0 then ninf else pinf
  | ninf, fin r => if r < 0 then pinf else ninf
  | fin _, pinf => fin 0
  | fin _, ninf => fin 0
  | fin q, fin r =>
    if r = 0 then (if q = 0 then nan else if 0 < q then pinf else ninf)
    else fin (q / r)

/-- Rust `x.max(0.0)`: `f32::max` returns the other operand when one is
`NaN`, so `NaN.max(0.0) = 0.0` — the `0/0` case is silenced but `+∞`
survives. -/
def FVal.fmax0 : FVal → FVal
  | nan => fin 0
  | pinf => pinf
  | ninf => fin 0
  | fin q => fin (max q 0)

/-- Rust `x.clamp(0.0, 1.0)`: `f32::clamp` returns `NaN` on `NaN` input —
a `NaN` channel value escapes into the output buffer. -/
def clamp01F : FVal → FVal
  | FVal.nan => FVal.nan
  | FVal.pinf => FVal.fin 1
  | FVal.ninf => FVal.fin 0
  | FVal.fin q => FVal.fin (min (max q 0) 1)

/-- Block sums and counts in the `FVal` model: the sums are f32
accumulations (possibly non-finite), the counts only ever accumulate
`+1.0` and stay finite. -/
structure BlockAccF where
  rSum : FVal
  gSum : FVal
  bSum : FVal
  rCnt : ℚ
  gCnt : ℚ
  bCnt : ℚ
deriving DecidableEq

/-- lib.rs lines 146-161 with faithful non-finite propagation: the
division by `white_range` is exactly the unguarded source division. -/
def accumCellF (raw : RawImage) (samples : List ℕ) (wb_norm : Fin 4 → ℚ)
    (white_range black_level : ℚ) (acc : BlockAccF) (cell : ℕ × ℕ) : BlockAccF :=
  let idx := cell.2 * raw.width + cell.1
  let color := raw.cfa cell.1 cell.2
  let raw_val : ℚ := (samples.getD idx 0 : ℕ)
  let bl : ℚ := if h : color < 4 then (raw.blacklevels ⟨color, h⟩ : ℚ) else black_level
  let val : FVal := FVal.fmax0 (FVal.div (FVal.fin (raw_val - bl)) (FVal.fin white_range))
  let wb_gain : ℚ := if h : color < 4 then wb_norm ⟨color, h⟩ else 1
  let wb_val := FVal.mul val (FVal.fin wb_gain)
  match color with
  | 0 => { acc with rSum := FVal.add acc.rSum wb_val, rCnt := acc.rCnt + 1 }
  | 1 => { acc with gSum := FVal.add acc.gSum wb_val, gCnt := acc.gCnt + 1 }
  | 2 => { acc with bSum := FVal.add acc.bSum wb_val, bCnt := acc.bCnt + 1 }
  | _ => { acc with gSum := FVal.add acc.gSum wb_val, gCnt := acc.gCnt + 1 }

/-- The double block loop of lib.rs lines 141-163 in the `FVal` model. -/
def blockAccumF (raw : RawImage) (samples : List ℕ) (wb_norm : Fin 4 → ℚ)
    (white_range black_level : ℚ) (step src_x src_y : ℕ) : BlockAccF :=
  (blockCells raw.width raw.height step src_x src_y).foldl
    (accumCellF raw samples wb_norm white_range black_level)
    ⟨FVal.fin 0, FVal.fin 0, FVal.fin 0, 0, 0, 0⟩

/-- lib.rs lines 165-167 in the `FVal` model: `sum / count` when the count
is positive, else 0.0. -/
def avgOfF (sum : FVal) (cnt : ℚ) : FVal :=
  if 0 < cnt then FVal.div sum (FVal.fin cnt) else FVal.fin 0

/-- lib.rs lines 40-46 in the `FVal` model: the calibration matrix entries
are finite, the averaged vector may not be — `0 * ∞` makes `NaN` here. -/
def mult_matrixF (m : Fin 3 → Fin 3 → ℚ) (v : Fin 3 → FVal) : Fin 3 → FVal :=
  ![FVal.add (FVal.add (FVal.mul (FVal.fin (m 0 0)) (v 0))
      (FVal.mul (FVal.fin (m 0 1)) (v 1))) (FVal.mul (FVal.fin (m 0 2)) (v 2)),
    FVal.add (FVal.add (FVal.mul (FVal.fin (m 1 0)) (v 0))
      (FVal.mul (FVal.fin (m 1 1)) (v 1))) (FVal.mul (FVal.fin (m 1 2)) (v 2)),
    FVal.add (FVal.add (FVal.mul (FVal.fin (m 2 0)) (v 0))
      (FVal.mul (FVal.fin (m 2 1)) (v 1))) (FVal.mul (FVal.fin (m 2 2)) (v 2))]

/-- lib.rs lines 129-175 in the `FVal` model, one output pixel. -/
def pixelRGBAF (raw : RawImage) (samples : List ℕ) (cam : Fin 3 → Fin 3 → ℚ)
    (wb_norm : Fin 4 → ℚ) (white_range black_level : ℚ) (step x y : ℕ) :
    List FVal :=
  let acc := blockAccumF raw samples wb_norm white_range black_level step (x * step) (y * step)
  let r_avg := avgOfF acc.rSum acc.rCnt
  let g_avg := avgOfF acc.gSum acc.gCnt
  let b_avg := avgOfF acc.bSum acc.bCnt
  let srgb := mult_matrixF cam ![r_avg, g_avg, b_avg]
  [clamp01F (srgb 0), clamp01F (srgb 1), clamp01F (srgb 2), FVal.fin 1]

/-- Output of `process_bayer` in the `FVal` model. -/
structure PreviewContextF where
  width : ℕ
  height : ℕ
  data : List FVal
deriving DecidableEq

/-- lib.rs lines 94-179 (`process_bayer`) in the `FVal` model: identical
geometry and metadata, faithful non-finite value propagation. -/
def process_bayerF (raw : RawImage) (full_quality : Bool) :
    Except String PreviewContextF :=
  match raw.data with
  | RawImageData.Float _ => Except.error "Float raw data not supported"
  | RawImageData.Integer samples =>
    let step := stepOf full_quality raw.width
    let w := raw.width / step
    let h := raw.height / step
    let cam := calculate_cam_to_srgb raw.camToXyz
    let wb_norm := calculate_wb_norm raw.wb_coeffs
    let base_white : ℚ := (raw.whitelevels 1 : ℕ)
    let black_level : ℚ := (raw.blacklevels 1 : ℕ)
    let white_range := base_white - black_level
    let pixels := (List.range h).flatMap fun y =>
      (List.range w).map fun x =>
        pixelRGBAF raw samples cam wb_norm white_range black_level step x y
    Except.ok { width := w, height := h, data := pixels.flatten }

/-- The well-formedness invariant maintained by the block loop when
`white_range ≠ 0`: finite sums, nonnegative counts. -/
def BlockAccF.Finite (acc : BlockAccF) : Prop :=
  (∃ a, acc.rSum = FVal.fin a) ∧ (∃ a, acc.gSum = FVal.fin a) ∧
  (∃ a, acc.bSum = FVal.fin a) ∧ 0 ≤ acc.rCnt ∧ 0 ≤ acc.gCnt ∧ 0 ≤ acc.bCnt

/-- The nine grading parameters (lib.rs lines 19-30, `ImageParams`). -/
structure ImageParams where
  exposure : ℝ
  contrast : ℝ
  temperature : ℝ
  tint : ℝ
  highlights : ℝ
  shadows : ℝ
  whites : ℝ
  blacks : ℝ
  saturation : ℝ

/-- Rust `x.clamp(lo, hi)` over the reals. -/
noncomputable def clampR (x lo hi : ℝ) : ℝ := min (max x lo) hi

/-- lib.rs line 237: `black_point = blacks * 0.2`. -/
noncomputable def levels_black_point (blacks : ℝ) : ℝ := blacks * 0.2

/-- lib.rs lines 238-239: `white_point = 1 + whites * 0.2`, forced to
`black_point + 0.001` when `white_point - black_point < 0.001`. -/
noncomputable def levels_white_point (blacks whites : ℝ) : ℝ :=
  if (1 + whites * 0.2) - levels_black_point blacks < 0.001 then
    levels_black_point blacks + 0.001
  else 1 + whites * 0.2

/-- lib.rs line 240: the levels divisor `white_point - black_point` (after
the degenerate-range guard). -/
noncomputable def levels_range (blacks whites : ℝ) : ℝ :=
  levels_white_point blacks whites - levels_black_point blacks

/-- lib.rs lines 242-244: remap one channel through the levels stage. -/
noncomputable def levels_remap (blacks whites v : ℝ) : ℝ :=
  (v - levels_black_point blacks) / levels_range blacks whites

open Classical in
/-- lib.rs lines 182-263 (`apply_processing`): the per-pixel grading
pipeline — white balance, exposure, contrast, luma-masked
shadows/highlights, levels, saturation, gamma encode. Stages on `ℝ`;
`powf` is `Real.rpow`. -/
noncomputable def apply_processing (r g b : ℝ) (params : ImageParams) :
    ℝ × ℝ × ℝ :=
  -- 1. White Balance (Temp/Tint)
  let ratio := (params.temperature - 5500) / 5500
  let wb_r := 1 + max ratio 0
  let wb_b := 1 - min ratio 0
  let wb_g := 1 + params.tint / 100
  let r1 := r * wb_r
  let g1 := g * wb_g
  let b1 := b * wb_b
  -- 2. Exposure
  let mag := (2 : ℝ) ^ params.exposure
  let r2 := if params.exposure ≠ 0 then r1 * mag else r1
  let g2 := if params.exposure ≠ 0 then g1 * mag else g1
  let b2 := if params.exposure ≠ 0 then b1 * mag else b1
  -- 3. Contrast
  let c := 1 + params.contrast
  let r3 := if params.contrast ≠ 0 then (r2 - 0.5) * c + 0.5 else r2
  let g3 := if params.contrast ≠ 0 then (g2 - 0.5) * c + 0.5 else g2
  let b3 := if params.contrast ≠ 0 then (b2 - 0.5) * c + 0.5 else b2
  -- 4. Luma for Tone Mapping
  let luma := 0.2126 * r3 + 0.7152 * g3 + 0.0722 * b3
  -- 5. Highlights / Shadows (masks from the pre-stage luma)
  let shadow_mask := 1 - clampR (luma / 0.6) 0 1
  let high_mask := clampR ((luma - 0.4) / 0.6) 0 1
  let s_fact := ((2 : ℝ) ^ params.shadows - 1) * shadow_mask * 0.5
  let r4 := if params.shadows ≠ 0 then r3 + r3 * s_fact else r3
  let g4 := if params.shadows ≠ 0 then g3 + g3 * s_fact else g3
  let b4 := if params.shadows ≠ 0 then b3 + b3 * s_fact else b3
  let h_fact := ((2 : ℝ) ^ params.highlights - 1) * high_mask * 0.5
  let r5 := if params.highlights ≠ 0 then r4 + r4 * h_fact else r4
  let g5 := if params.highlights ≠ 0 then g4 + g4 * h_fact else g4
  let b5 := if params.highlights ≠ 0 then b4 + b4 * h_fact else b4
  -- 6. Levels (Whites / Blacks)
  let r6 := levels_remap params.blacks params.whites r5
  let g6 := levels_remap params.blacks params.whites g5
  let b6 := levels_remap params.blacks params.whites b5
  -- 7. Saturation
  let l := 0.2126 * r6 + 0.7152 * g6 + 0.0722 * b6
  let sat_mult := 1 + params.saturation
  let r7 := if params.saturation ≠ 0 then l + (r6 - l) * sat_mult else r6
  let g7 := if params.saturation ≠ 0 then l + (g6 - l) * sat_mult else g6
  let b7 := if params.saturation ≠ 0 then l + (b6 - l) * sat_mult else b6
  -- 7. Gamma Correction ( Linear -> sRGB )
  let gamma : ℝ := 1 / 2.2
  (max r7 0 ^ gamma, max g7 0 ^ gamma, max b7 0 ^ gamma)

/-- The all-neutral parameter set: exposure=0, contrast=0,
temperature=5500, tint=0, highlights=0, shadows=0, whites=0, blacks=0,
saturation=0. -/
noncomputable def neutralParams : ImageParams :=
  { exposure := 0, contrast := 0, temperature := 5500, tint := 0,
    highlights := 0, shadows := 0, whites := 0, blacks := 0, saturation := 0 }

/-! Concrete inputs used by counterexamples and witnesses -/

/-- White-balance coefficients with a zero green coefficient and a red
coefficient different from green. -/
def wbGreenZero : Fin 4 → ℚ := ![2, 0, 1, 1]

/-- White-balance coefficients with a negative green coefficient. -/
def wbGreenNeg : Fin 4 → ℚ := ![3, -1, 2, 5]

/-- White-balance coefficients with a tiny positive green coefficient
(0.00005 ≤ 0.0001). -/
def wbGreenTiny : Fin 4 → ℚ := ![5, 0.00005, 3, 4]

/-- The all-zero camera→XYZ matrix (composed sum is 0). -/
def camXyzZero : Fin 3 → Fin 4 → ℚ := fun _ _ => 0

/-- A camera→XYZ matrix whose composition with the XYZ→sRGB matrix has a
nonzero entry sum. -/
def camXyzE00 : Fin 3 → Fin 4 → ℚ := ![![1,0,0,0], ![0,0,0,0], ![0,0,0,0]]

/-- A frame carrying floating-point sample data. -/
def rawFloatFrame : RawImage :=
  { width := 2, height := 2, data := RawImageData.Float [1/2],
    cfa := fun _ _ => 0, blacklevels := fun _ => 0,
    whitelevels := fun _ => 100, wb_coeffs := fun _ => 1,
    camToXyz := fun _ _ => 0 }

/-- A 2×2 integer RGGB frame: samples 10, 20, 30, 40, black level 0, white
level 100, unit white balance, zeroed calibration matrix. -/
def rawIntFrame : RawImage :=
  { width := 2, height := 2, data := RawImageData.Integer [10, 20, 30, 40],
    cfa := fun x y =>
      if y % 2 = 0 then (if x % 2 = 0 then 0 else 1)
      else (if x % 2 = 0 then 3 else 2),
    blacklevels := fun _ => 0, whitelevels := fun _ => 100,
    wb_coeffs := fun _ => 1, camToXyz := fun _ _ => 0 }

/-- The `FVal`-model `PreviewContext` produced for `rawIntFrame` at `Full`
quality. -/
def ctxIntFrameF : PreviewContextF :=
  { width := 1, height := 1,
    data := [FVal.fin (1/10), FVal.fin (1/4), FVal.fin (2/5), FVal.fin 1] }

/-- A 2×2 integer RGGB frame with a degenerate white range: white level and
black level are both 100 (`white_range = 0`) and every sample is 200, so
the unguarded division at lib.rs line 151 produces `+∞`. -/
def rawDegenFrame : RawImage :=
  { width := 2, height := 2, data := RawImageData.Integer [200, 200, 200, 200],
    cfa := fun x y =>
      if y % 2 = 0 then (if x % 2 = 0 then 0 else 1)
      else (if x % 2 = 0 then 3 else 2),
    blacklevels := fun _ => 100, whitelevels := fun _ => 100,
    wb_coeffs := fun _ => 1, camToXyz := fun _ _ => 0 }

/-- The buffer `process_bayerF` returns for `rawDegenFrame`: `NaN` in every
color channel. -/
def ctxDegenFrame : PreviewContextF :=
  { width := 1, height := 1, data := [FVal.nan, FVal.nan, FVal.nan, FVal.fin 1] }

/-- A 1×5 integer frame: narrower than the minimum step 2. -/
def rawNarrowFrame : RawImage :=
  { width := 1, height := 5, data := RawImageData.Integer [7, 7, 7, 7, 7],
    cfa := fun _ _ => 1, blacklevels := fun _ => 0,
    whitelevels := fun _ => 100, wb_coeffs := fun _ => 1,
    camToXyz := fun _ _ => 0 }

/-- A 2×2 integer frame whose CFA reports every cell as green, so the R and
B buckets of its single block are empty. -/
def rawAllGreenFrame : RawImage :=
  { width := 2, height := 2, data := RawImageData.Integer [10, 20, 30, 40],
    cfa := fun _ _ => 1, blacklevels := fun _ => 0,
    whitelevels := fun _ => 100, wb_coeffs := fun _ => 1,
    camToXyz := fun _ _ => 0 }

/-! Helper lemmas -/

lemma flatten_chunks_getD_gen {α : Type} (d one : α) (L : List (List α))
    (h : ∀ p ∈ L, p.length = 4 ∧ p.getD 3 d = one) :
    ∀ i, i < L.flatten.length → i % 4 = 3 → L.flatten.getD i d = one := by
  induction L with
  | nil => intro i hi; simp at hi
  | cons p ps ih =>
    intro i hi hm
    obtain ⟨hp4, hp3⟩ := h p (List.mem_cons_self p ps)
    rw [List.flatten_cons]
    by_cases hlt : i < p.length
    · have hi3 : i = 3 := by omega
      rw [List.getD_append _ _ _ _ hlt, hi3]
      exact hp3
    · push_neg at hlt
      rw [List.getD_append_right _ _ _ _ hlt]
      refine ih (fun q hq => h q (List.mem_cons_of_mem p hq)) (i - p.length) ?_ ?_
      · rw [List.flatten_cons, List.length_append] at hi
        omega
      · omega

lemma FVal.div_fin_of_ne (a b : ℚ) (hb : b ≠ 0) :
    FVal.div (FVal.fin a) (FVal.fin b) = FVal.fin (a / b) := by
  simp [FVal.div, hb]

lemma accumCellF_finite (raw : RawImage) (samples : List ℕ) (wbn : Fin 4 → ℚ)
    (wr bl : ℚ) (hwr : wr ≠ 0) (acc : BlockAccF) (cell : ℕ × ℕ)
    (h : acc.Finite) : (accumCellF raw samples wbn wr bl acc cell).Finite := by
  obtain ⟨⟨a, ha⟩, ⟨b, hb⟩, ⟨c, hc⟩, h1, h2, h3⟩ := h
  simp only [accumCellF]
  rcases hcol : raw.cfa cell.1 cell.2 with _ | _ | _ | n <;>
    simp [hcol, BlockAccF.Finite, FVal.div_fin_of_ne _ _ hwr, FVal.fmax0,
      FVal.mul, FVal.add, ha, hb, hc] <;>
    refine ⟨?_, ?_, ?_⟩ <;> first | exact ⟨_, rfl⟩ | linarith

lemma foldlF_finite (raw : RawImage) (samples : List ℕ) (wbn : Fin 4 → ℚ)
    (wr bl : ℚ) (hwr : wr ≠ 0) (cells : List (ℕ × ℕ)) (acc : BlockAccF)
    (h : acc.Finite) :
    (cells.foldl (accumCellF raw samples wbn wr bl) acc).Finite := by
  induction cells generalizing acc with
  | nil => exact h
  | cons c cs ih =>
    exact ih _ (accumCellF_finite raw samples wbn wr bl hwr acc c h)

lemma blockAccumF_finite (raw : RawImage) (samples : List ℕ) (wbn : Fin 4 → ℚ)
    (wr bl : ℚ) (hwr : wr ≠ 0) (step sx sy : ℕ) :
    (blockAccumF raw samples wbn wr bl step sx sy).Finite := by
  unfold blockAccumF
  exact foldlF_finite raw samples wbn wr bl hwr _ _
    ⟨⟨0, rfl⟩, ⟨0, rfl⟩, ⟨0, rfl⟩, le_refl 0, le_refl 0, le_refl 0⟩

lemma avgOfF_fin (s cnt : ℚ) : ∃ q, avgOfF (FVal.fin s) cnt = FVal.fin q := by
  unfold avgOfF
  split
  · next hpos => exact ⟨s / cnt, FVal.div_fin_of_ne s cnt (ne_of_gt hpos)⟩
  · exact ⟨0, rfl⟩

lemma mult_matrixF_fin (m : Fin 3 → Fin 3 → ℚ) (v : Fin 3 → FVal)
    (h : ∀ i, ∃ q, v i = FVal.fin q) :
    ∀ i, ∃ q, mult_matrixF m v i = FVal.fin q := by
  obtain ⟨a, ha⟩ := h 0
  obtain ⟨b, hb⟩ := h 1
  obtain ⟨c, hc⟩ := h 2
  intro i
  fin_cases i <;>
    simp [mult_matrixF, ha, hb, hc, FVal.mul, FVal.add,
      Matrix.vecHead, Matrix.vecTail, Function.comp]

lemma pixelRGBAF_length (raw samples cam wbn wr bl step x y) :
    (pixelRGBAF raw samples cam wbn wr bl step x y).length = 4 := rfl

lemma pixelRGBAF_getD3 (raw samples cam wbn wr bl step x y) :
    (pixelRGBAF raw samples cam wbn wr bl step x y).getD 3 (FVal.fin 0) =
      FVal.fin 1 := rfl

lemma clamp01F_fin_unit (q : ℚ) :
    ∃ x, clamp01F (FVal.fin q) = FVal.fin x ∧ 0 ≤ x ∧ x ≤ 1 :=
  ⟨min (max q 0) 1, rfl, le_min (le_max_right q 0) zero_le_one, min_le_right _ _⟩

lemma pixelRGBAF_mem_unit (raw : RawImage) (samples : List ℕ)
    (cam : Fin 3 → Fin 3 → ℚ) (wbn : Fin 4 → ℚ) (wr bl : ℚ) (hwr : wr ≠ 0)
    (step x y : ℕ) (v : FVal)
    (hv : v ∈ pixelRGBAF raw samples cam wbn wr bl step x y) :
    ∃ q, v = FVal.fin q ∧ 0 ≤ q ∧ q ≤ 1 := by
  obtain ⟨⟨a, ha⟩, ⟨b, hb⟩, ⟨c, hc⟩, h1, h2, h3⟩ :=
    blockAccumF_finite raw samples wbn wr bl hwr step (x * step) (y * step)
  unfold pixelRGBAF at hv
  have havg : ∀ i, ∃ q,
      (![avgOfF (blockAccumF raw samples wbn wr bl step (x * step) (y * step)).rSum
          (blockAccumF raw samples wbn wr bl step (x * step) (y * step)).rCnt,
        avgOfF (blockAccumF raw samples wbn wr bl step (x * step) (y * step)).gSum
          (blockAccumF raw samples wbn wr bl step (x * step) (y * step)).gCnt,
        avgOfF (blockAccumF raw samples wbn wr bl step (x * step) (y * step)).bSum
          (blockAccumF raw samples wbn wr bl step (x * step) (y * step)).bCnt] :
        Fin 3 → FVal) i = FVal.fin q := by
    intro i
    fin_cases i <;>
      simp [Matrix.vecHead, Matrix.vecTail, Function.comp]
    · exact ha ▸ avgOfF_fin a _
    · exact hb ▸ avgOfF_fin b _
    · exact hc ▸ avgOfF_fin c _
  have hsrgb := mult_matrixF_fin cam _ havg
  obtain ⟨q0, hq0⟩ := hsrgb 0
  obtain ⟨q1, hq1⟩ := hsrgb 1
  obtain ⟨q2, hq2⟩ := hsrgb 2
  simp only [List.mem_cons] at hv
  rcases hv with h | h | h | h | h
  · subst h; rw [hq0]; exact clamp01F_fin_unit q0
  · subst h; rw [hq1]; exact clamp01F_fin_unit q1
  · subst h; rw [hq2]; exact clamp01F_fin_unit q2
  · subst h; exact ⟨1, rfl, zero_le_one, le_refl 1⟩
  · simp at h

lemma mem_pixelsF_exists (raw : RawImage) (samples : List ℕ) (cam wbn)
    (wr bl : ℚ) (step w h : ℕ) (p : List FVal)
    (hp : p ∈ (List.range h).flatMap fun y =>
        (List.range w).map fun x => pixelRGBAF raw samples cam wbn wr bl step x y) :
    ∃ x y, p = pixelRGBAF raw samples cam wbn wr bl step x y := by
  simp only [List.mem_flatMap, List.mem_map, List.mem_range] at hp
  obtain ⟨y, _, x, _, hxy⟩ := hp
  exact ⟨x, y, hxy.symm⟩

lemma process_bayerF_integer (raw : RawImage) (q : Bool) (samples : List ℕ)
    (hd : raw.data = RawImageData.Integer samples) :
    process_bayerF raw q = Except.ok
      { width := raw.width / stepOf q raw.width,
        height := raw.height / stepOf q raw.width,
        data := ((List.range (raw.height / stepOf q raw.width)).flatMap fun y =>
          (List.range (raw.width / stepOf q raw.width)).map fun x =>
            pixelRGBAF raw samples (calculate_cam_to_srgb raw.camToXyz)
              (calculate_wb_norm raw.wb_coeffs)
              ((raw.whitelevels 1 : ℚ) - (raw.blacklevels 1 : ℚ))
              ((raw.blacklevels 1 : ℚ)) (stepOf q raw.width) x y).flatten } := by
  simp only [process_bayerF, hd]

lemma blockAccumF_rawDegenFrame :
    blockAccumF rawDegenFrame [200, 200, 200, 200] (fun _ => (1:ℚ)) 0 100 2 0 0 =
      ⟨FVal.pinf, FVal.pinf, FVal.pinf, 1, 2, 1⟩ := by
  have hcells : blockCells rawDegenFrame.width rawDegenFrame.height 2 0 0 =
      [(0, 0), (1, 0), (0, 1), (1, 1)] := by decide
  rw [blockAccumF, hcells]
  simp only [List.foldl_cons, List.foldl_nil]
  norm_num [accumCellF, rawDegenFrame, FVal.div, FVal.fmax0, FVal.mul, FVal.add]

lemma process_bayerF_rawDegenFrame :
    process_bayerF rawDegenFrame true = Except.ok ctxDegenFrame := by
  have hcam : calculate_cam_to_srgb rawDegenFrame.camToXyz = identity3 := by
    norm_num [rawDegenFrame, calculate_cam_to_srgb, composeCamSrgb, truncate34,
      matrixSum9]
  have hwb : calculate_wb_norm rawDegenFrame.wb_coeffs = fun _ => (1:ℚ) := by
    funext i
    norm_num [rawDegenFrame, calculate_wb_norm]
  have hpix : pixelRGBAF rawDegenFrame [200, 200, 200, 200] identity3
      (fun _ => (1:ℚ)) 0 100 2 0 0 = [FVal.nan, FVal.nan, FVal.nan, FVal.fin 1] := by
    rw [pixelRGBAF, blockAccumF_rawDegenFrame]
    norm_num [avgOfF, mult_matrixF, identity3, clamp01F, FVal.div, FVal.mul,
      FVal.add, Matrix.vecHead, Matrix.vecTail, Function.comp]
  rw [process_bayerF_integer rawDegenFrame true [200, 200, 200, 200] rfl]
  have hstep : stepOf true rawDegenFrame.width = 2 := by decide
  have hwl : (rawDegenFrame.whitelevels 1 : ℚ) = 100 := by norm_num [rawDegenFrame]
  have hbl : (rawDegenFrame.blacklevels 1 : ℚ) = 100 := by norm_num [rawDegenFrame]
  rw [hstep, show rawDegenFrame.width = 2 from rfl,
    show rawDegenFrame.height = 2 from rfl, hwl, hbl, hcam, hwb]
  norm_num [List.range_succ, ctxDegenFrame]
  rw [hpix]

lemma blockAccumF_rawIntFrame :
    blockAccumF rawIntFrame [10, 20, 30, 40] (fun _ => (1:ℚ)) 100 0 2 0 0 =
      ⟨FVal.fin (1/10), FVal.fin (1/2), FVal.fin (2/5), 1, 2, 1⟩ := by
  have hcells : blockCells rawIntFrame.width rawIntFrame.height 2 0 0 =
      [(0, 0), (1, 0), (0, 1), (1, 1)] := by decide
  rw [blockAccumF, hcells]
  simp only [List.foldl_cons, List.foldl_nil]
  norm_num [accumCellF, rawIntFrame, FVal.div, FVal.fmax0, FVal.mul, FVal.add]

lemma process_bayerF_rawIntFrame :
    process_bayerF rawIntFrame true = Except.ok ctxIntFrameF := by
  have hcam : calculate_cam_to_srgb rawIntFrame.camToXyz = identity3 := by
    norm_num [rawIntFrame, calculate_cam_to_srgb, composeCamSrgb, truncate34,
      matrixSum9]
  have hwb : calculate_wb_norm rawIntFrame.wb_coeffs = fun _ => (1:ℚ) := by
    funext i
    norm_num [rawIntFrame, calculate_wb_norm]
  have hpix : pixelRGBAF rawIntFrame [10, 20, 30, 40] identity3
      (fun _ => (1:ℚ)) 100 0 2 0 0 =
      [FVal.fin (1/10), FVal.fin (1/4), FVal.fin (2/5), FVal.fin 1] := by
    rw [pixelRGBAF, blockAccumF_rawIntFrame]
    norm_num [avgOfF, mult_matrixF, identity3, clamp01F, FVal.div, FVal.mul,
      FVal.add, Matrix.vecHead, Matrix.vecTail, Function.comp]
  rw [process_bayerF_integer rawIntFrame true [10, 20, 30, 40] rfl]
  have hstep : stepOf true rawIntFrame.width = 2 := by decide
  have hwl : (rawIntFrame.whitelevels 1 : ℚ) = 100 := by norm_num [rawIntFrame]
  have hbl : (rawIntFrame.blacklevels 1 : ℚ) = 0 := by norm_num [rawIntFrame]
  rw [hstep, show rawIntFrame.width = 2 from rfl,
    show rawIntFrame.height = 2 from rfl, hwl, hbl, hcam, hwb]
  norm_num [List.range_succ, ctxIntFrameF]
  rw [hpix]

lemma process_bayer_integer (raw : RawImage) (q : Bool) (samples : List ℕ)
    (hd : raw.data = RawImageData.Integer samples) :
    process_bayer raw q = Except.ok
      { width := raw.width / stepOf q raw.width,
        height := raw.height / stepOf q raw.width,
        data := ((List.range (raw.height / stepOf q raw.width)).flatMap fun y =>
          (List.range (raw.width / stepOf q raw.width)).map fun x =>
            pixelRGBA raw samples (calculate_cam_to_srgb raw.camToXyz)
              (calculate_wb_norm raw.wb_coeffs)
              ((raw.whitelevels 1 : ℚ) - (raw.blacklevels 1 : ℚ))
              ((raw.blacklevels 1 : ℚ)) (stepOf q raw.width) x y).flatten } := by
  simp only [process_bayer, hd]

lemma stepOf_even_ge_two (q : Bool) (w : ℕ) :
    stepOf q w % 2 = 0 ∧ 2 ≤ stepOf q w := by
  unfold stepOf
  simp only []
  repeat' split
  all_goals omega

lemma accumCell_counts_nonneg (raw : RawImage) (samples : List ℕ)
    (wbn : Fin 4 → ℚ) (wr bl : ℚ) (acc : BlockAcc) (cell : ℕ × ℕ)
    (h : 0 ≤ acc.rCnt ∧ 0 ≤ acc.gCnt ∧ 0 ≤ acc.bCnt) :
    0 ≤ (accumCell raw samples wbn wr bl acc cell).rCnt ∧
    0 ≤ (accumCell raw samples wbn wr bl acc cell).gCnt ∧
    0 ≤ (accumCell raw samples wbn wr bl acc cell).bCnt := by
  obtain ⟨hr, hg, hb⟩ := h
  simp only [accumCell]
  rcases hc : raw.cfa cell.1 cell.2 with _ | _ | _ | n <;>
    simp [hc] <;> constructor <;> try constructor
  all_goals linarith

lemma foldl_counts_nonneg (raw : RawImage) (samples : List ℕ)
    (wbn : Fin 4 → ℚ) (wr bl : ℚ) (cells : List (ℕ × ℕ)) (acc : BlockAcc)
    (h : 0 ≤ acc.rCnt ∧ 0 ≤ acc.gCnt ∧ 0 ≤ acc.bCnt) :
    0 ≤ (cells.foldl (accumCell raw samples wbn wr bl) acc).rCnt ∧
    0 ≤ (cells.foldl (accumCell raw samples wbn wr bl) acc).gCnt ∧
    0 ≤ (cells.foldl (accumCell raw samples wbn wr bl) acc).bCnt := by
  induction cells generalizing acc with
  | nil => exact h
  | cons c cs ih =>
    exact ih _ (accumCell_counts_nonneg raw samples wbn wr bl acc c h)

lemma blockAccum_counts_nonneg (raw : RawImage) (samples : List ℕ)
    (wbn : Fin 4 → ℚ) (wr bl : ℚ) (step sx sy : ℕ) :
    0 ≤ (blockAccum raw samples wbn wr bl step sx sy).rCnt ∧
    0 ≤ (blockAccum raw samples wbn wr bl step sx sy).gCnt ∧
    0 ≤ (blockAccum raw samples wbn wr bl step sx sy).bCnt := by
  unfold blockAccum
  exact foldl_counts_nonneg raw samples wbn wr bl _ _ (by norm_num)

lemma avgOf_zero (s : ℚ) : avgOf s 0 = 0 := by simp [avgOf]

lemma avgOf_pos_mul (s c : ℚ) (hc0 : 0 ≤ c) (hne : c ≠ 0) :
    avgOf s c * c = s := by
  have hpos : 0 < c := lt_of_le_of_ne hc0 (Ne.symm hne)
  rw [avgOf, if_pos hpos, div_mul_cancel₀ _ hne]

/-! Claim theorems -/

/-- C1 (counterexample): the claim "whiteBalance[green] ≤ 0 implies all
WB-normalized gains equal 1.0" is false: for coefficients (2, 0, 1, 1) the
green coefficient is ≤ 0 yet the red gain computed by `calculate_wb_norm`
is 2, not 1. -/
theorem wb_gains_green_nonpos_counterexample :
    wbGreenZero 1 ≤ 0 ∧ calculate_wb_norm wbGreenZero 0 = 2 ∧ (2:ℚ) ≠ 1 :=
  ⟨by norm_num [wbGreenZero], by norm_num [calculate_wb_norm, wbGreenZero],
    by norm_num⟩

/-- C1 (amended): when the white-balance green coefficient is ≤ 0 the
divisor defaults to 1.0, so every gain computed by `calculate_wb_norm`
equals the raw coefficient itself (in particular no division by zero
occurs: the divisor is the constant 1). -/
theorem wb_gains_green_nonpos_eq_raw_coeffs (wb : Fin 4 → ℚ) (h : wb 1 ≤ 0)
    (i : Fin 4) : calculate_wb_norm wb i = wb i := by
  unfold calculate_wb_norm
  rw [if_neg (not_lt.mpr h)]
  rw [if_pos (by norm_num), div_one]

/-- C1 witness: the amended statement at the concrete coefficients
(3, -1, 2, 5). -/
theorem wb_gains_green_nonpos_eq_raw_coeffs_witness :
    wbGreenNeg 1 ≤ 0 ∧ calculate_wb_norm wbGreenNeg 0 = wbGreenNeg 0 :=
  ⟨by norm_num [wbGreenNeg],
    wb_gains_green_nonpos_eq_raw_coeffs wbGreenNeg (by norm_num [wbGreenNeg]) 0⟩

/-- C2 (counterexample): the claim "every accepted integer frame yields a
buffer with R/G/B in [0, 1] and no NaN" is false. `rawDegenFrame` has
integer samples and is accepted (`Ok` is returned), yet because
`whitelevels[1] = blacklevels[1]` the unguarded division by `white_range`
at lib.rs line 151 produces `+∞`, the calibration multiply produces `NaN`
(`0 * ∞`), and `clamp` passes `NaN` into the returned buffer: the output
contains `NaN`, which is no finite value at all, in particular not a value
in [0, 1]. -/
theorem process_bayer_degenerate_nan_counterexample :
    process_bayerF rawDegenFrame true = Except.ok ctxDegenFrame ∧
    FVal.nan ∈ ctxDegenFrame.data ∧ ∀ x : ℚ, FVal.nan ≠ FVal.fin x :=
  ⟨process_bayerF_rawDegenFrame, by simp [ctxDegenFrame], fun x => by simp⟩

/-- C2 (amended): for every integer-encoded frame whose green white level
differs from its green black level (`white_range ≠ 0` — the one division
the source leaves unguarded), every entry of the returned buffer is a
finite value in [0, 1] and every fourth entry — the A component — is
exactly 1.0. -/
theorem process_bayer_nondegenerate_pixels_unit_alpha_one (raw : RawImage)
    (q : Bool) (ctx : PreviewContextF)
    (hwr : raw.whitelevels 1 ≠ raw.blacklevels 1)
    (h : process_bayerF raw q = Except.ok ctx) :
    (∀ v ∈ ctx.data, ∃ x : ℚ, v = FVal.fin x ∧ 0 ≤ x ∧ x ≤ 1) ∧
    (∀ i, i < ctx.data.length → i % 4 = 3 →
      ctx.data.getD i (FVal.fin 0) = FVal.fin 1) := by
  have hwrq : ((raw.whitelevels 1 : ℚ) - (raw.blacklevels 1 : ℚ)) ≠ 0 := by
    rw [sub_ne_zero]
    exact_mod_cast hwr
  cases hd : raw.data with
  | Float fs => simp [process_bayerF, hd] at h
  | Integer samples =>
    rw [process_bayerF_integer raw q samples hd, Except.ok.injEq] at h
    subst h
    constructor
    · intro v hv
      simp only [List.mem_flatten] at hv
      obtain ⟨p, hpmem, hvp⟩ := hv
      obtain ⟨x, y, hxy⟩ := mem_pixelsF_exists _ _ _ _ _ _ _ _ _ _ hpmem
      exact pixelRGBAF_mem_unit _ _ _ _ _ _ hwrq _ _ _ v (hxy ▸ hvp)
    · refine flatten_chunks_getD_gen _ _ _ ?_
      intro p hp
      obtain ⟨x, y, hxy⟩ := mem_pixelsF_exists _ _ _ _ _ _ _ _ _ _ hp
      exact hxy ▸ ⟨pixelRGBAF_length _ _ _ _ _ _ _ _ _,
        pixelRGBAF_getD3 _ _ _ _ _ _ _ _ _⟩

/-- C2 witness: the nondegenerate 2×2 RGGB frame (white 100, black 0)
yields the buffer [1/10, 1/4, 2/5, 1]; the G component 1/4 is finite in
[0, 1] and the A entry at index 3 is 1. -/
theorem process_bayer_nondegenerate_pixels_unit_alpha_one_witness :
    process_bayerF rawIntFrame true = Except.ok ctxIntFrameF ∧
    rawIntFrame.whitelevels 1 ≠ rawIntFrame.blacklevels 1 ∧
    (∃ x : ℚ, FVal.fin (1/4) = FVal.fin x ∧ 0 ≤ x ∧ x ≤ 1) ∧
    ctxIntFrameF.data.getD 3 (FVal.fin 0) = FVal.fin 1 := by
  have heval := process_bayerF_rawIntFrame
  have hwr : rawIntFrame.whitelevels 1 ≠ rawIntFrame.blacklevels 1 := by decide
  have hmem : FVal.fin (1/4) ∈ ctxIntFrameF.data := by norm_num [ctxIntFrameF]
  exact ⟨heval, hwr,
    (process_bayer_nondegenerate_pixels_unit_alpha_one rawIntFrame true
      ctxIntFrameF hwr heval).1 _ hmem,
    (process_bayer_nondegenerate_pixels_unit_alpha_one rawIntFrame true
      ctxIntFrameF hwr heval).2 3 (by norm_num [ctxIntFrameF]) (by norm_num)⟩

/-- C3: in the levels stage, whenever `whitePoint - blackPoint < 0.001` the
white point is forced to `blackPoint + 0.001`; the remap divisor is always
at least 0.001; and the remapped value is bounded (finite) for every finite
input: `|remap v| ≤ 1000 * |v - blackPoint|`. -/
theorem levels_stage_min_range_guard (blacks whites : ℝ) :
    ((1 + whites * 0.2) - levels_black_point blacks < 0.001 →
      levels_white_point blacks whites = levels_black_point blacks + 0.001) ∧
    0.001 ≤ levels_range blacks whites ∧
    ∀ v : ℝ, |levels_remap blacks whites v| ≤
      1000 * |v - levels_black_point blacks| := by
  have hrange : 0.001 ≤ levels_range blacks whites := by
    unfold levels_range levels_white_point
    split
    · ring_nf
      norm_num
    · next h => linarith [not_lt.mp h]
  refine ⟨fun h => ?_, hrange, fun v => ?_⟩
  · unfold levels_white_point
    rw [if_pos h]
  · have hpos : (0:ℝ) < levels_range blacks whites := by linarith
    unfold levels_remap
    rw [abs_div, abs_of_pos hpos, div_le_iff₀ hpos]
    nlinarith [abs_nonneg (v - levels_black_point blacks)]

/-- C3 witness: at blacks = 10, whites = -10 the raw range is -3 < 0.001,
the white point is forced to blackPoint + 0.001, the divisor is ≥ 0.001 and
the remap of v = 5 is bounded. -/
theorem levels_stage_min_range_guard_witness :
    ((1 + (-10: ℝ) * 0.2) - levels_black_point 10 < 0.001) ∧
    levels_white_point 10 (-10) = levels_black_point 10 + 0.001 ∧
    0.001 ≤ levels_range 10 (-10) ∧
    |levels_remap 10 (-10) 5| ≤ 1000 * |5 - levels_black_point 10| := by
  have hcond : (1 + (-10: ℝ) * 0.2) - levels_black_point 10 < 0.001 := by
    norm_num [levels_black_point]
  exact ⟨hcond, (levels_stage_min_range_guard 10 (-10)).1 hcond,
    (levels_stage_min_range_guard 10 (-10)).2.1,
    (levels_stage_min_range_guard 10 (-10)).2.2 5⟩

/-- C4: for every camera→XYZ matrix, if the nine entries of the composed
camera→sRGB matrix sum to exactly 0 then `calculate_cam_to_srgb` returns
the identity matrix, and otherwise it returns the composed matrix
unchanged. -/
theorem cam_to_srgb_zero_sum_identity (m : Fin 3 → Fin 4 → ℚ) :
    (matrixSum9 (composeCamSrgb (truncate34 m)) = 0 →
      calculate_cam_to_srgb m = identity3) ∧
    (matrixSum9 (composeCamSrgb (truncate34 m)) ≠ 0 →
      calculate_cam_to_srgb m = composeCamSrgb (truncate34 m)) := by
  constructor <;> intro h <;> simp [calculate_cam_to_srgb, h]

/-- C4 witness: the all-zero camera matrix composes to sum 0 and yields the
identity; a matrix with a single 1 entry composes to a nonzero sum and is
used unchanged. -/
theorem cam_to_srgb_zero_sum_identity_witness :
    (matrixSum9 (composeCamSrgb (truncate34 camXyzZero)) = 0 ∧
      calculate_cam_to_srgb camXyzZero = identity3) ∧
    (matrixSum9 (composeCamSrgb (truncate34 camXyzE00)) ≠ 0 ∧
      calculate_cam_to_srgb camXyzE00 = composeCamSrgb (truncate34 camXyzE00)) := by
  have hz : matrixSum9 (composeCamSrgb (truncate34 camXyzZero)) = 0 := by
    norm_num [matrixSum9, composeCamSrgb, truncate34, camXyzZero]
  have hnz : matrixSum9 (composeCamSrgb (truncate34 camXyzE00)) ≠ 0 := by
    norm_num [matrixSum9, composeCamSrgb, truncate34, camXyzE00, xyz_to_srgb,
      Matrix.vecHead, Matrix.vecTail, Function.comp]
  exact ⟨⟨hz, (cam_to_srgb_zero_sum_identity camXyzZero).1 hz⟩,
    ⟨hnz, (cam_to_srgb_zero_sum_identity camXyzE00).2 hnz⟩⟩

/-- C5: grading the pixel (0.5, 0.5, 0.5) with the all-neutral parameter
set returns 0.5^(1/2.2) on every channel: the neutral parameters act as the
identity up to the final gamma-encode step. -/
theorem grade_neutral_is_gamma_encode :
    apply_processing 0.5 0.5 0.5 neutralParams =
      ((0.5:ℝ) ^ ((1:ℝ) / 2.2), (0.5:ℝ) ^ ((1:ℝ) / 2.2),
        (0.5:ℝ) ^ ((1:ℝ) / 2.2)) := by
  unfold apply_processing neutralParams
  norm_num [levels_remap, levels_white_point, levels_black_point, levels_range]

/-- C6: for every positive sensor width, the Preview-quality step is even
and at least 2. -/
theorem preview_step_even_and_ge_two (w : ℕ) (h : 0 < w) :
    stepOf false w % 2 = 0 ∧ 2 ≤ stepOf false w :=
  stepOf_even_ge_two false w

/-- C6 witness: width 2500 gives step 4 (ceil(2500/1024) = 3, rounded up to
even). -/
theorem preview_step_even_and_ge_two_witness :
    0 < 2500 ∧ (stepOf false 2500 % 2 = 0 ∧ 2 ≤ stepOf false 2500) :=
  ⟨by decide, preview_step_even_and_ge_two 2500 (by decide)⟩

/-- C7: `process_bayer` fails with the descriptive error "Float raw data
not supported" on every frame with floating-point sample data (no buffer is
returned), and never fails on integer-encoded frames. -/
theorem process_bayer_float_rejected_integer_ok (raw : RawImage) (q : Bool) :
    (∀ fs, raw.data = RawImageData.Float fs →
      process_bayer raw q = Except.error "Float raw data not supported") ∧
    (∀ samples, raw.data = RawImageData.Integer samples →
      (process_bayer raw q).isOk = true) := by
  constructor
  · intro fs hd
    simp [process_bayer, hd]
  · intro samples hd
    rw [process_bayer_integer raw q samples hd]
    rfl

/-- C7 witness: a float-data frame is rejected with the exact error string;
an integer frame of the same shape succeeds. -/
theorem process_bayer_float_rejected_integer_ok_witness :
    process_bayer rawFloatFrame false = Except.error "Float raw data not supported" ∧
    (process_bayer rawIntFrame false).isOk = true :=
  ⟨(process_bayer_float_rejected_integer_ok rawFloatFrame false).1 [1/2] rfl,
    (process_bayer_float_rejected_integer_ok rawIntFrame false).2
      [10, 20, 30, 40] rfl⟩

/-- C8: for every demosaic block (any frame, step and block corner), each
channel bucket with a zero count contributes the value 0 and each bucket
with a nonzero count contributes exactly sum/count (stated as
`avg * count = sum`; counts are never negative, so nonzero means
positive and the division is well defined). -/
theorem block_average_division_guarded (raw : RawImage) (samples : List ℕ)
    (wbn : Fin 4 → ℚ) (wr bl : ℚ) (step sx sy : ℕ) :
    ((blockAccum raw samples wbn wr bl step sx sy).rCnt = 0 →
      avgOf (blockAccum raw samples wbn wr bl step sx sy).rSum
        (blockAccum raw samples wbn wr bl step sx sy).rCnt = 0) ∧
    ((blockAccum raw samples wbn wr bl step sx sy).rCnt ≠ 0 →
      avgOf (blockAccum raw samples wbn wr bl step sx sy).rSum
          (blockAccum raw samples wbn wr bl step sx sy).rCnt *
        (blockAccum raw samples wbn wr bl step sx sy).rCnt =
        (blockAccum raw samples wbn wr bl step sx sy).rSum) ∧
    ((blockAccum raw samples wbn wr bl step sx sy).gCnt = 0 →
      avgOf (blockAccum raw samples wbn wr bl step sx sy).gSum
        (blockAccum raw samples wbn wr bl step sx sy).gCnt = 0) ∧
    ((blockAccum raw samples wbn wr bl step sx sy).gCnt ≠ 0 →
      avgOf (blockAccum raw samples wbn wr bl step sx sy).gSum
          (blockAccum raw samples wbn wr bl step sx sy).gCnt *
        (blockAccum raw samples wbn wr bl step sx sy).gCnt =
        (blockAccum raw samples wbn wr bl step sx sy).gSum) ∧
    ((blockAccum raw samples wbn wr bl step sx sy).bCnt = 0 →
      avgOf (blockAccum raw samples wbn wr bl step sx sy).bSum
        (blockAccum raw samples wbn wr bl step sx sy).bCnt = 0) ∧
    ((blockAccum raw samples wbn wr bl step sx sy).bCnt ≠ 0 →
      avgOf (blockAccum raw samples wbn wr bl step sx sy).bSum
          (blockAccum raw samples wbn wr bl step sx sy).bCnt *
        (blockAccum raw samples wbn wr bl step sx sy).bCnt =
        (blockAccum raw samples wbn wr bl step sx sy).bSum) := by
  obtain ⟨hr, hg, hb⟩ := blockAccum_counts_nonneg raw samples wbn wr bl step sx sy
  refine ⟨fun h => by rw [h]; exact avgOf_zero _, fun h => avgOf_pos_mul _ _ hr h,
    fun h => by rw [h]; exact avgOf_zero _, fun h => avgOf_pos_mul _ _ hg h,
    fun h => by rw [h]; exact avgOf_zero _, fun h => avgOf_pos_mul _ _ hb h⟩

/-- C8 witness: on an all-green 2×2 block the R bucket is empty so the R
average is 0 without division, while the G bucket (count 4) averages to
sum/count. -/
theorem block_average_division_guarded_witness :
    (blockAccum rawAllGreenFrame [10, 20, 30, 40] (fun _ => (1:ℚ)) 100 0 2 0 0).rCnt = 0 ∧
    avgOf (blockAccum rawAllGreenFrame [10, 20, 30, 40] (fun _ => (1:ℚ)) 100 0 2 0 0).rSum
      (blockAccum rawAllGreenFrame [10, 20, 30, 40] (fun _ => (1:ℚ)) 100 0 2 0 0).rCnt = 0 ∧
    (blockAccum rawAllGreenFrame [10, 20, 30, 40] (fun _ => (1:ℚ)) 100 0 2 0 0).gCnt ≠ 0 ∧
    avgOf (blockAccum rawAllGreenFrame [10, 20, 30, 40] (fun _ => (1:ℚ)) 100 0 2 0 0).gSum
        (blockAccum rawAllGreenFrame [10, 20, 30, 40] (fun _ => (1:ℚ)) 100 0 2 0 0).gCnt *
      (blockAccum rawAllGreenFrame [10, 20, 30, 40] (fun _ => (1:ℚ)) 100 0 2 0 0).gCnt =
      (blockAccum rawAllGreenFrame [10, 20, 30, 40] (fun _ => (1:ℚ)) 100 0 2 0 0).gSum := by
  have hacc : blockAccum rawAllGreenFrame [10, 20, 30, 40] (fun _ => (1:ℚ)) 100 0 2 0 0 =
      ⟨0, 1, 0, 0, 4, 0⟩ := by
    have hcells : blockCells rawAllGreenFrame.width rawAllGreenFrame.height 2 0 0 =
        [(0, 0), (1, 0), (0, 1), (1, 1)] := by decide
    rw [blockAccum, hcells]
    simp only [List.foldl_cons, List.foldl_nil]
    norm_num [accumCell, rawAllGreenFrame]
  have h0 : (blockAccum rawAllGreenFrame [10, 20, 30, 40] (fun _ => (1:ℚ)) 100 0 2 0 0).rCnt = 0 := by
    rw [hacc]
  have hne : (blockAccum rawAllGreenFrame [10, 20, 30, 40] (fun _ => (1:ℚ)) 100 0 2 0 0).gCnt ≠ 0 := by
    rw [hacc]
    norm_num
  exact ⟨h0,
    (block_average_division_guarded rawAllGreenFrame [10, 20, 30, 40]
      (fun _ => (1:ℚ)) 100 0 2 0 0).1 h0, hne,
    (block_average_division_guarded rawAllGreenFrame [10, 20, 30, 40]
      (fun _ => (1:ℚ)) 100 0 2 0 0).2.2.2.1 hne⟩

/-- C9: a strictly positive green coefficient that is at most 0.0001 makes
`calculate_wb_norm` skip the division and return 1.0 for all four gains,
whatever the other coefficients are. -/
theorem wb_gains_tiny_green_all_one (wb : Fin 4 → ℚ) (h1 : 0 < wb 1)
    (h2 : wb 1 ≤ 0.0001) (i : Fin 4) : calculate_wb_norm wb i = 1 := by
  unfold calculate_wb_norm
  rw [if_pos h1]
  rw [if_neg (not_lt.mpr h2)]

/-- C9 witness: coefficients (5, 0.00005, 3, 4) — tiny positive green —
give a red gain of 1.0 even though the red coefficient is 5. -/
theorem wb_gains_tiny_green_all_one_witness :
    0 < wbGreenTiny 1 ∧ wbGreenTiny 1 ≤ 0.0001 ∧
    calculate_wb_norm wbGreenTiny 0 = 1 :=
  ⟨by norm_num [wbGreenTiny], by norm_num [wbGreenTiny],
    wb_gains_tiny_green_all_one wbGreenTiny (by norm_num [wbGreenTiny])
      (by norm_num [wbGreenTiny]) 0⟩

/-- C10: an integer frame whose width or height is smaller than the
selected step yields `Ok` with output width or height 0 (truncating
division) and an empty pixel buffer — not an error. -/
theorem process_bayer_undersized_frame_empty_ok (raw : RawImage) (q : Bool)
    (samples : List ℕ) (hd : raw.data = RawImageData.Integer samples)
    (hlt : raw.width < stepOf q raw.width ∨ raw.height < stepOf q raw.width) :
    process_bayer raw q = Except.ok
      { width := raw.width / stepOf q raw.width,
        height := raw.height / stepOf q raw.width, data := [] } ∧
    (raw.width / stepOf q raw.width) * (raw.height / stepOf q raw.width) = 0 := by
  rw [process_bayer_integer raw q samples hd]
  rcases hlt with hlt | hlt
  · have hw : raw.width / stepOf q raw.width = 0 := Nat.div_eq_of_lt hlt
    rw [hw]
    simp
  · have hh : raw.height / stepOf q raw.width = 0 := Nat.div_eq_of_lt hlt
    rw [hh]
    simp

/-- C10 witness: the 1×5 frame (width 1 < step 2) succeeds with output
0×2 and an empty buffer. -/
theorem process_bayer_undersized_frame_empty_ok_witness :
    process_bayer rawNarrowFrame false = Except.ok ⟨0, 2, []⟩ ∧ 0 * 2 = 0 :=
  process_bayer_undersized_frame_empty_ok rawNarrowFrame false
    [7, 7, 7, 7, 7] rfl (Or.inl (by decide))

end RawEditApp
